import Mathlib

/-!
Shallow embedding of the subscription multiplexer / reconnection client in
src/services/WebSocketService.ts of delta-component-craft, together with
proofs of the specified testable properties.

Modelling conventions:
* JS strings are Lean strings; the nullable symbol parameter is
  an optional string.  JS truthiness tests on strings treat the empty
  string like null; the embedding spells that out with an explicit
  emptiness test.
* Callbacks are abstract identities, modelled as natural-number ids.  A JS
  Set of callbacks is a duplicate-free list of ids in insertion order
  (setAdd appends only when absent, matching Set.add; List.erase matches
  Set.delete).  The subscribers Map is an association list; the
  activeSubscriptions Set is a duplicate-free list of keys in insertion
  order.
* Wire output (ws.send of the serialized message) is abstracted as a Frame
  value carrying the channel-list name of the subscribe or unsubscribe
  message, or the raw payload for send.  Each operation returns the list of
  frames it emitted.
* The WebSocket object is an optional Conn: a connection id (so that
  opening a second physical connection is observable) plus its readyState.
* Promise resolution or rejection of connect is modelled with Except; the
  asynchronous onopen / onclose / onerror handlers and the reconnect timer
  firing are separate state-transition functions.
-/

namespace DeltaWS

/-- readyState of a WebSocket (CONNECTING = 0, OPEN = 1, CLOSING = 2,
CLOSED = 3). -/
inductive ReadyState
  | connecting
  | opened
  | closing
  | closed
deriving DecidableEq, Repr

/-- Numeric value of a readyState, as exposed by getConnectionState. -/
def readyStateNum : ReadyState → Nat
  | .connecting => 0
  | .opened => 1
  | .closing => 2
  | .closed => 3

/-- A physical WebSocket object: an identity (so that constructing a second
connection is observable) and its readyState. -/
structure Conn where
  id : Nat
  state : ReadyState
deriving DecidableEq, Repr

/-- Configuration after the constructor applied its defaults
(reconnectInterval 3000, maxReconnectAttempts 10, overridden by the caller
supplied config). -/
structure WebSocketConfig where
  url : String
  reconnectInterval : Nat := 3000
  maxReconnectAttempts : Nat := 10
deriving DecidableEq, Repr

/-- A wire message sent on the socket: the subscribe and unsubscribe
messages are identified by the single channel name they carry in
payload.channels[0].name; raw carries a send payload. -/
inductive Frame
  | subscribe (name : String)
  | unsubscribe (name : String)
  | raw (payload : String)
deriving DecidableEq, Repr

/-- The mutable fields of the WebSocketService class. -/
structure Service where
  ws : Option Conn
  config : WebSocketConfig
  reconnectAttempts : Nat
  reconnectTimer : Bool
  subscribers : List (String × List Nat)
  activeSubscriptions : List String
  isConnecting : Bool
  isDestroyed : Bool
  /-- Fresh id handed to the next constructed WebSocket. -/
  nextConnId : Nat
deriving DecidableEq, Repr

/-- A freshly constructed service. -/
def Service.init (cfg : WebSocketConfig) : Service :=
  { ws := none
    config := cfg
    reconnectAttempts := 0
    reconnectTimer := false
    subscribers := []
    activeSubscriptions := []
    isConnecting := false
    isDestroyed := false
    nextConnId := 0 }

/-! ### Association-list and set helpers (JS Map / Set semantics) -/

/-- Embedding of Map.get (also used for Map.has) on the subscribers map. -/
def alGet : List (String × List Nat) → String → Option (List Nat)
  | [], _ => none
  | (k, v) :: rest, key => if k = key then some v else alGet rest key

/-- Embedding of Map.set: replace the binding if present, else append
(insertion order). -/
def alSet : List (String × List Nat) → String → List Nat → List (String × List Nat)
  | [], key, v => [(key, v)]
  | (k, w) :: rest, key, v =>
      if k = key then (k, v) :: rest else (k, w) :: alSet rest key v

/-- Embedding of Map.delete. -/
def alErase : List (String × List Nat) → String → List (String × List Nat)
  | [], _ => []
  | (k, w) :: rest, key => if k = key then rest else (k, w) :: alErase rest key

/-- Embedding of Set.add for callback sets: a no-op when the element is
already present. -/
def setAdd (l : List Nat) (x : Nat) : List Nat :=
  if x ∈ l then l else l ++ [x]

/-- Embedding of Set.add for the string set activeSubscriptions. -/
def strInsert (l : List String) (x : String) : List String :=
  if x ∈ l then l else l ++ [x]

/-! ### The service operations, translated method by method -/

/-- Embedding of createSubscriptionKey: the key is channel joined to symbol
by a colon when the symbol is truthy, else the bare channel.  The empty
string is falsy in JS, hence the explicit test.  sendSubscription and
sendUnsubscription compute the wire name with the same expression, so the
definition is shared. -/
def createSubscriptionKey (channel : String) (symbol : Option String) : String :=
  match symbol with
  | some s => if s = "" then channel else channel ++ ":" ++ s
  | none => channel

/-- Embedding of the test that the socket exists and its readyState is
OPEN. -/
def wsIsOpen (s : Service) : Bool :=
  match s.ws with
  | some c => c.state = .opened
  | none => false

/-- Embedding of sendSubscription: when the socket is open, send the
subscribe message and record the key in activeSubscriptions; otherwise do
nothing. -/
def sendSubscription (s : Service) (channel : String) (symbol : Option String) :
    Service × List Frame :=
  if wsIsOpen s then
    let key := createSubscriptionKey channel symbol
    ({ s with activeSubscriptions := strInsert s.activeSubscriptions key },
      [Frame.subscribe key])
  else (s, [])

/-- Embedding of sendUnsubscription: when the socket is open, send the
unsubscribe message and drop the key from activeSubscriptions; otherwise do
nothing. -/
def sendUnsubscription (s : Service) (channel : String) (symbol : Option String) :
    Service × List Frame :=
  if wsIsOpen s then
    let key := createSubscriptionKey channel symbol
    ({ s with activeSubscriptions := s.activeSubscriptions.erase key },
      [Frame.unsubscribe key])
  else (s, [])

/-- Embedding of subscribe(channel, symbol, callback) up to returning the
unsubscribe closure: if the key is new, create its (empty) set and call
sendSubscription; then add the callback to the set stored under the key. -/
def subscribe (s : Service) (channel : String) (symbol : Option String)
    (cb : Nat) : Service × List Frame :=
  let key := createSubscriptionKey channel symbol
  let step :=
    if (alGet s.subscribers key).isNone then
      sendSubscription { s with subscribers := alSet s.subscribers key [] }
        channel symbol
    else (s, [])
  let s1 := step.1
  let cur := (alGet s1.subscribers key).getD []
  ({ s1 with subscribers := alSet s1.subscribers key (setAdd cur cb) }, step.2)

/-- Embedding of one invocation of the unsubscribe closure returned by
subscribe; the closure captured the key, the channel, the symbol and the
callback.  Delete the callback from the set stored under the key; when the
set becomes empty, delete the key and call sendUnsubscription. -/
def unsubscribeHandle (s : Service) (channel : String) (symbol : Option String)
    (cb : Nat) : Service × List Frame :=
  let key := createSubscriptionKey channel symbol
  match alGet s.subscribers key with
  | none => (s, [])
  | some set0 =>
      let set1 := set0.erase cb
      if set1 = [] then
        sendUnsubscription { s with subscribers := alErase s.subscribers key }
          channel symbol
      else ({ s with subscribers := alSet s.subscribers key set1 }, [])

/-! ### Message routing -/

/-- One element of the inbound data array; payload abstracts the remaining
fields of the item. -/
structure Item where
  symbol : Option String
  payload : String
deriving DecidableEq, Repr

/-- An inbound DeltaMessage after JSON parsing. -/
structure DeltaMessage where
  type : String
  table : Option String
  action : Option String
  data : Option (List Item)
deriving DecidableEq, Repr

/-- The object a callback is invoked with: channel, symbol, action and the
data item. -/
structure Envelope where
  channel : String
  symbol : Option String
  action : Option String
  item : Item
deriving DecidableEq, Repr

/-- One callback invocation performed while routing a frame; threw records
whether the callback raised.  The raise is caught and logged by the
surrounding try/catch, so it affects nothing else. -/
structure Invocation where
  cb : Nat
  env : Envelope
  threw : Bool
deriving DecidableEq, Repr

/-- Embedding of the expression taking item.symbol with null as fallback:
the empty string is falsy and also becomes null. -/
def itemSymbol (it : Item) : Option String :=
  match it.symbol with
  | some x => if x = "" then none else some x
  | none => none

/-- Embedding of the truthiness guard on message.table: an empty table name
fails the guard. -/
def tableName (m : DeltaMessage) : Option String :=
  match m.table with
  | some t => if t = "" then none else some t
  | none => none

/-- Dispatch of one data item: look up the canonical key of the item and
invoke every callback of that key with the envelope.  Each call sits in its
own try/catch, so a throwing callback (as described by the throws behaviour)
is recorded and skipped over rather than stopping the iteration. -/
def dispatchItem (s : Service) (throws : Nat → Envelope → Bool)
    (channel : String) (action : Option String) (it : Item) : List Invocation :=
  let symbol := itemSymbol it
  let key := createSubscriptionKey channel symbol
  ((alGet s.subscribers key).getD []).map fun c =>
    let e : Envelope := ⟨channel, symbol, action, it⟩
    ⟨c, e, throws c e⟩

/-- Embedding of handleMessage: route a parsed inbound frame.  Only frames
of type table with a truthy table name and a data array are dispatched; the
registry and connection state are never touched. -/
def handleMessage (s : Service) (throws : Nat → Envelope → Bool)
    (m : DeltaMessage) : Service × List Invocation :=
  if m.type = "table" then
    match tableName m, m.data with
    | some channel, some items =>
        (s, items.flatMap (dispatchItem s throws channel m.action))
    | _, _ => (s, [])
  else (s, [])

/-! ### Connection lifecycle -/

/-- Embedding of connect: reject if destroyed, resolve immediately if a
connect is in flight, otherwise mark connecting and construct a fresh
WebSocket (readyState CONNECTING).  The returned promise is pending; the
onOpen and onError transitions below settle it. -/
def connect (s : Service) : Except String Service :=
  if s.isDestroyed then .error "Service destroyed"
  else if s.isConnecting then .ok s
  else .ok { s with
    isConnecting := true
    ws := some ⟨s.nextConnId, .connecting⟩
    nextConnId := s.nextConnId + 1 }

/-- Embedding of shouldReconnect: the attempt count must stay below the
configured maximum, where a configured value of zero is falsy and falls back
to the default of ten. -/
def shouldReconnect (s : Service) : Bool :=
  s.reconnectAttempts <
    (if s.config.maxReconnectAttempts = 0 then 10 else s.config.maxReconnectAttempts)

/-- Embedding of scheduleReconnect: clear any pending timer and arm a new
one. -/
def scheduleReconnect (s : Service) : Service :=
  { s with reconnectTimer := true }

/-- Embedding of the split used by resubscribeAll on stored keys: the JS
string split on the colon character, yielding every colon-free segment. -/
def splitOnColon : List Char → List (List Char)
  | [] => [[]]
  | c :: rest =>
      if c = ':' then [] :: splitOnColon rest
      else
        match splitOnColon rest with
        | [] => [[c]]
        | g :: gs => (c :: g) :: gs

/-- Parse a stored subscription key back into channel and symbol as
resubscribeAll does: when the key contains a colon, destructure the split
into its first two segments (segments past the second are dropped);
otherwise the key is the channel and the symbol is null. -/
def parseKey (k : String) : String × Option String :=
  if ':' ∈ k.data then
    match splitOnColon k.data with
    | a :: b :: _ => (String.mk a, some (String.mk b))
    | _ => (k, none)
  else (k, none)

/-- The body of the Set.forEach in resubscribeAll: visit activeSubscriptions
in insertion order, including keys appended during the iteration (as the JS
Set.prototype.forEach does).  The fuel argument only guards termination;
twice the set size plus one always suffices because a key appended by
sendSubscription re-parses to itself and appends nothing further. -/
def resubscribeGo : Nat → Nat → Service → Service × List Frame
  | 0, _, s => (s, [])
  | fuel + 1, i, s =>
      match s.activeSubscriptions.get? i with
      | none => (s, [])
      | some key =>
          let p := parseKey key
          let step := sendSubscription s p.1 p.2
          let rest := resubscribeGo fuel (i + 1) step.1
          (rest.1, step.2 ++ rest.2)

/-- Embedding of resubscribeAll: re-send a subscription for every key in
activeSubscriptions. -/
def resubscribeAll (s : Service) : Service × List Frame :=
  resubscribeGo (2 * s.activeSubscriptions.length + 1) 0 s

/-- The onopen handler: readyState becomes OPEN, the connecting flag is
cleared, the attempt counter resets to zero, and all active subscriptions
are replayed (then the pending connect promise resolves). -/
def onOpen (s : Service) : Service × List Frame :=
  resubscribeAll
    { s with
      ws := s.ws.map fun c => { c with state := .opened }
      isConnecting := false
      reconnectAttempts := 0 }

/-- The onclose handler: clear the connecting flag, drop the socket, and, if
not destroyed and the retry budget remains, schedule a reconnect. -/
def onClose (s : Service) : Service :=
  let s1 := { s with isConnecting := false, ws := none }
  if ¬s1.isDestroyed ∧ shouldReconnect s1 then scheduleReconnect s1 else s1

/-- The onerror handler: clear the connecting flag (and reject the pending
connect promise). -/
def onError (s : Service) : Service :=
  { s with isConnecting := false }

/-- The reconnect timer firing: the timer is consumed, the attempt counter
is bumped, and connect is called with its rejection swallowed by the
attached catch. -/
def timerFire (s : Service) : Service :=
  let s1 := { s with reconnectTimer := false,
                     reconnectAttempts := s.reconnectAttempts + 1 }
  match connect s1 with
  | .ok s2 => s2
  | .error _ => s1

/-- Embedding of send: transmit when the socket is open, otherwise warn and
drop the frame. -/
def send (s : Service) (payload : String) : Service × List Frame :=
  if wsIsOpen s then (s, [Frame.raw payload]) else (s, [])

/-- Embedding of getConnectionState: the readyState of the socket, with
CLOSED (3) as fallback when there is none. -/
def getConnectionState (s : Service) : Nat :=
  match s.ws with
  | some c => readyStateNum c.state
  | none => 3

/-- Embedding of disconnect (the teardown call): set the destroyed flag,
cancel the reconnect timer, close and drop the socket, and clear both the
subscriber map and the active-subscription set. -/
def disconnect (s : Service) : Service :=
  { s with
    isDestroyed := true
    reconnectTimer := false
    ws := none
    subscribers := []
    activeSubscriptions := [] }

/-! ### Event and trace machinery used by the properties -/

/-- The internally triggered transitions: the reconnect timer firing and the
socket handlers.  Each is enabled only when its source exists. -/
inductive InternalEvent
  | timerFired
  | wsOpened
  | wsClosed
  | wsErrored
deriving DecidableEq, Repr

/-- One internal step when the given event source is present, none when the
event cannot fire (no pending timer, no socket). -/
def stepInternal (s : Service) : InternalEvent → Option Service
  | .timerFired => if s.reconnectTimer then some (timerFire s) else none
  | .wsOpened => if s.ws.isSome then some (onOpen s).1 else none
  | .wsClosed => if s.ws.isSome then some (onClose s) else none
  | .wsErrored => if s.ws.isSome then some (onError s) else none

/-- A registry operation performed by collaborators: a subscribe call, or an
invocation of the unsubscribe closure captured from an earlier subscribe
call with the same channel, symbol and callback. -/
inductive Op
  | sub (channel : String) (symbol : Option String) (cb : Nat)
  | unsub (channel : String) (symbol : Option String) (cb : Nat)
deriving DecidableEq, Repr

/-- Apply one registry operation. -/
def applyOp (s : Service) : Op → Service × List Frame
  | .sub c sym cb => subscribe s c sym cb
  | .unsub c sym cb => unsubscribeHandle s c sym cb

/-- Run a sequence of registry operations, collecting all emitted frames in
order. -/
def runOps : Service → List Op → Service × List Frame
  | s, [] => (s, [])
  | s, op :: ops =>
      let step := applyOp s op
      let rest := runOps step.1 ops
      (rest.1, step.2 ++ rest.2)

/-- Whether a key currently holds at least one registered callback. -/
def hasCb (s : Service) (k : String) : Bool :=
  !((alGet s.subscribers k).getD []).isEmpty

/-- Whether a key is present in the subscribers map. -/
def isReg (s : Service) (k : String) : Bool :=
  (alGet s.subscribers k).isSome

/-- Number of steps of a run at which a state predicate flips from false to
true. -/
def upTrans (p : Service → Bool) : Service → List Op → Nat
  | _, [] => 0
  | s, op :: ops =>
      (if p s = false ∧ p (applyOp s op).1 = true then 1 else 0) +
        upTrans p (applyOp s op).1 ops

/-- Number of steps of a run at which a state predicate flips from true to
false. -/
def downTrans (p : Service → Bool) : Service → List Op → Nat
  | _, [] => 0
  | s, op :: ops =>
      (if p s = true ∧ p (applyOp s op).1 = false then 1 else 0) +
        downTrans p (applyOp s op).1 ops

/-- Well-formedness of the subscribers map as maintained by the class: keys
are unique (it is a Map), and every stored callback set is duplicate-free
and nonempty (a key is deleted when its set empties). -/
def WFSubscribers (m : List (String × List Nat)) : Prop :=
  (m.map Prod.fst).Nodup ∧ ∀ p ∈ m, p.2.Nodup ∧ p.2 ≠ []

instance (m : List (String × List Nat)) : Decidable (WFSubscribers m) := by
  unfold WFSubscribers; infer_instance

/-! ### Concrete states used by the witnesses and counterexamples -/

/-- A concrete configuration (constructor defaults applied). -/
def cfg0 : WebSocketConfig := { url := "wss://socket.delta.exchange" }

/-- A service whose socket is open, as after one successful connect. -/
def liveService : Service :=
  { Service.init cfg0 with ws := some ⟨0, .opened⟩, nextConnId := 1 }

/-- A service whose retry budget is exhausted (attempt counter at the
default maximum of ten). -/
def exhaustedService : Service :=
  { Service.init cfg0 with reconnectAttempts := 10 }

/-- Number of occurrences of a frame in an emitted frame list. -/
def countFrame (f : Frame) : List Frame → Nat
  | [] => 0
  | g :: rest => (if g = f then 1 else 0) + countFrame f rest

/-- The symbols whose canonical key round-trips through the replay split:
an absent symbol, or a nonempty colon-free one. -/
def symbolRoundTrips : Option String → Prop
  | none => True
  | some s => s ≠ "" ∧ ':' ∉ s.data

instance (o : Option String) : Decidable (symbolRoundTrips o) := by
  cases o <;> (unfold symbolRoundTrips; infer_instance)

/-- State reached by subscribing to v2/ticker:BTCUSDT while disconnected. -/
def offlineSub : Service :=
  (subscribe (Service.init cfg0) "v2/ticker" (some "BTCUSDT") 3).1

/-- A connected service with two live keys (and matching registry), used by
the replay witness. -/
def liveTwoKeys : Service :=
  { liveService with
      subscribers := [("v2/ticker:BTCUSDT", [1]), ("l2_orderbook", [2])]
      activeSubscriptions := ["v2/ticker:BTCUSDT", "l2_orderbook"] }

/-- State after subscribing callback 7 to v2/ticker:BTCUSDT on the connected
service. -/
def c8s1 : Service := (subscribe liveService "v2/ticker" (some "BTCUSDT") 7).1

/-- State after the first invocation of the unsubscribe handle of c8s1. -/
def c8s2 : Service := (unsubscribeHandle c8s1 "v2/ticker" (some "BTCUSDT") 7).1

/-- State after re-subscribing the same callback 7 to the same key. -/
def c8s3 : Service := (subscribe c8s2 "v2/ticker" (some "BTCUSDT") 7).1

/-- The data item of the concrete frame used by the fault-isolation
witness. -/
def itC4 : Item := ⟨some "BTCUSDT", "price 65000.50"⟩

/-- The concrete inbound frame used by the fault-isolation witness. -/
def mC4 : DeltaMessage := ⟨"table", some "v2/ticker", some "update", some [itC4]⟩

/-- A connected service with callbacks 8 and 9 on the matched key and 5 on
another key. -/
def liveC4 : Service :=
  { liveService with
      subscribers := [("v2/ticker:BTCUSDT", [8, 9]), ("l2_orderbook:BTCUSDT", [5])] }

/-- A behaviour where callback 8 always throws. -/
def tC4 : Nat → Envelope → Bool := fun c _ => c == 8

/-- A concrete operation sequence: two subscribers on the ticker key, full
unsubscription, a re-subscription, one orderbook subscription, and one
no-op unsubscription of a never-registered callback. -/
def opsW : List Op :=
  [Op.sub "v2/ticker" (some "BTCUSDT") 1,
   Op.sub "v2/ticker" (some "BTCUSDT") 2,
   Op.sub "l2_orderbook" (some "BTCUSDT") 3,
   Op.unsub "v2/ticker" (some "BTCUSDT") 1,
   Op.unsub "v2/ticker" (some "BTCUSDT") 2,
   Op.sub "v2/ticker" (some "BTCUSDT") 1,
   Op.unsub "v2/ticker" (some "BTCUSDT") 9]

/-- The operations that do not re-register a given callback under a given
key: every unsubscribe-handle invocation, and every subscribe whose callback
or canonical key differs. -/
def notResub (c : String) (sym : Option String) (cb : Nat) : Op → Prop
  | Op.sub c2 sym2 cb2 =>
      cb2 ≠ cb ∨ createSubscriptionKey c2 sym2 ≠ createSubscriptionKey c sym
  | Op.unsub _ _ _ => True

instance (c : String) (sym : Option String) (cb : Nat) (op : Op) :
    Decidable (notResub c sym cb op) := by
  cases op <;> (unfold notResub; infer_instance)

/-- Operations interleaved between the two handle invocations of the C8
witness: none re-registers callback 7 under the ticker key. -/
def opsC8 : List Op :=
  [Op.sub "v2/ticker" (some "BTCUSDT") 8,
   Op.sub "l2_orderbook" (some "BTCUSDT") 7,
   Op.unsub "v2/ticker" (some "BTCUSDT") 8]

/-! ### C5: routing of a concrete ticker frame -/

/-- C5.  Routing the inbound frame of type table with table v2/ticker,
action update and one data item with symbol BTCUSDT leaves the state
untouched and invokes exactly the callbacks registered under the key
v2/ticker:BTCUSDT, each with an envelope carrying channel v2/ticker, symbol
BTCUSDT and action update; callbacks under every other key (including a
bare v2/ticker channel subscription, which this code does not match for
symbol-bearing items) are not invoked. -/
theorem ticker_frame_routing (s : Service) (throws : Nat → Envelope → Bool)
    (price : String) :
    handleMessage s throws
        ⟨"table", some "v2/ticker", some "update", some [⟨some "BTCUSDT", price⟩]⟩ =
      (s, ((alGet s.subscribers "v2/ticker:BTCUSDT").getD []).map fun c =>
          ⟨c, ⟨"v2/ticker", some "BTCUSDT", some "update", ⟨some "BTCUSDT", price⟩⟩,
            throws c ⟨"v2/ticker", some "BTCUSDT", some "update",
              ⟨some "BTCUSDT", price⟩⟩⟩) := by
  simp [handleMessage, tableName, dispatchItem, itemSymbol, createSubscriptionKey]

/-! ### C6: teardown -/

theorem sendSubscription_isDestroyed (s : Service) (c : String)
    (sym : Option String) :
    (sendSubscription s c sym).1.isDestroyed = s.isDestroyed := by
  unfold sendSubscription; split <;> rfl

theorem sendUnsubscription_isDestroyed (s : Service) (c : String)
    (sym : Option String) :
    (sendUnsubscription s c sym).1.isDestroyed = s.isDestroyed := by
  unfold sendUnsubscription; split <;> rfl

theorem applyOp_isDestroyed (s : Service) (op : Op) :
    (applyOp s op).1.isDestroyed = s.isDestroyed := by
  cases op with
  | sub c sym cb =>
      show (subscribe s c sym cb).1.isDestroyed = s.isDestroyed
      cases hv : alGet s.subscribers (createSubscriptionKey c sym) with
      | none =>
          simp only [subscribe, hv, Option.isNone_none, if_true]
          show (sendSubscription { s with subscribers := alSet s.subscribers (createSubscriptionKey c sym) [] } c sym).1.isDestroyed = s.isDestroyed
          rw [sendSubscription_isDestroyed]
      | some v =>
          simp only [subscribe, hv, Option.isNone_some, Bool.false_eq_true, if_false]
  | unsub c sym cb =>
      show (unsubscribeHandle s c sym cb).1.isDestroyed = s.isDestroyed
      cases hv : alGet s.subscribers (createSubscriptionKey c sym) with
      | none => simp only [unsubscribeHandle, hv]
      | some v =>
          by_cases hd : v.erase cb = []
          · simp only [unsubscribeHandle, hv, hd, if_true]
            show (sendUnsubscription { s with subscribers := alErase s.subscribers (createSubscriptionKey c sym) } c sym).1.isDestroyed = s.isDestroyed
            rw [sendUnsubscription_isDestroyed]
          · simp only [unsubscribeHandle, hv, hd, if_false]

/-- C6.  disconnect sets the permanent destroyed flag, cancels any pending
reconnect timer, closes (drops) the physical connection, and clears both the
subscriber map and the live-subscription set; a second disconnect changes
nothing; connect on a torn-down service rejects with the service destroyed
error; and the destroyed flag is permanent — it survives every registry
operation, so every later connect also rejects. -/
theorem teardown_contract (s : Service) :
    (disconnect s).isDestroyed = true ∧
    (disconnect s).reconnectTimer = false ∧
    (disconnect s).ws = none ∧
    (disconnect s).subscribers = [] ∧
    (disconnect s).activeSubscriptions = [] ∧
    disconnect (disconnect s) = disconnect s ∧
    connect (disconnect s) = .error "Service destroyed" ∧
    (∀ t : Service, t.isDestroyed = true →
      connect t = .error "Service destroyed" ∧
      ∀ op : Op, (applyOp t op).1.isDestroyed = true) :=
  ⟨rfl, rfl, rfl, rfl, rfl, rfl, rfl, fun t ht =>
    ⟨by simp [connect, ht], fun op => by rw [applyOp_isDestroyed, ht]⟩⟩

/-- Witness for teardown_contract: the permanence clause evaluated on a
concrete torn-down service and one registry operation. -/
theorem teardown_contract_witness :
    connect (disconnect (Service.init cfg0)) = .error "Service destroyed" ∧
    (applyOp (disconnect (Service.init cfg0))
        (Op.sub "v2/ticker" (some "BTCUSDT") 0)).1.isDestroyed = true :=
  ⟨((teardown_contract (Service.init cfg0)).2.2.2.2.2.2.2
      (disconnect (Service.init cfg0)) (by decide)).1,
   ((teardown_contract (Service.init cfg0)).2.2.2.2.2.2.2
      (disconnect (Service.init cfg0)) (by decide)).2
      (Op.sub "v2/ticker" (some "BTCUSDT") 0)⟩

/-! ### C7: operations after teardown -/

/-- C7 counterexample.  After teardown, subscribe does not fail: it silently
re-registers the callback in the cleared registry (returning no error and
emitting nothing), and send silently drops the payload.  Only connect fails,
so the claim that every further operation fails deterministically is false
on this code. -/
theorem post_teardown_subscribe_succeeds_silently :
    (subscribe (disconnect (Service.init cfg0)) "v2/ticker" (some "BTCUSDT") 0).1.subscribers
        = [("v2/ticker:BTCUSDT", [0])] ∧
    (subscribe (disconnect (Service.init cfg0)) "v2/ticker" (some "BTCUSDT") 0).2 = [] ∧
    send (disconnect (Service.init cfg0)) "ping"
        = (disconnect (Service.init cfg0), []) := by
  decide

/-- C7 (amended).  After teardown, only connect fails deterministically
(with the service destroyed error); subscribe silently registers the
callback under its key while emitting no wire frame, an unsubscribe handle
for a no-longer-registered callback is a silent no-op, and send silently
drops the frame. -/
theorem post_teardown_behaviour (s : Service) (c : String) (sym : Option String)
    (cb : Nat) (p : String) :
    connect (disconnect s) = .error "Service destroyed" ∧
    (subscribe (disconnect s) c sym cb).1.subscribers
        = [(createSubscriptionKey c sym, [cb])] ∧
    (subscribe (disconnect s) c sym cb).2 = [] ∧
    unsubscribeHandle (disconnect s) c sym cb = (disconnect s, []) ∧
    send (disconnect s) p = (disconnect s, []) := by
  refine ⟨rfl, ?_, ?_, ?_, ?_⟩ <;>
    simp [subscribe, unsubscribeHandle, send, sendSubscription, disconnect,
      wsIsOpen, alGet, alSet, setAdd]

/-! ### C3: idempotence of connect -/

/-- C3 counterexample.  On a service that is connected (socket open) with no
connect in flight and not destroyed, connect is not idempotent: it
constructs a second physical WebSocket (fresh connection id, readyState
CONNECTING), replacing the open one. -/
theorem connect_when_connected_opens_second_socket :
    wsIsOpen liveService = true ∧
    liveService.isConnecting = false ∧
    liveService.isDestroyed = false ∧
    (connect liveService).toOption =
      some { liveService with
              isConnecting := true
              ws := some ⟨1, .connecting⟩
              nextConnId := 2 } := by
  decide

/-- C3 (amended).  connect is idempotent only while a connect is in flight
(the connecting flag set): it then resolves immediately without touching the
state; on a destroyed service it rejects with the service destroyed error
without opening a connection; but whenever the connecting flag is clear (in
particular while already connected) it constructs a fresh physical
WebSocket. -/
theorem connect_idempotency_contract (s : Service) :
    (s.isDestroyed = true → connect s = .error "Service destroyed") ∧
    (s.isDestroyed = false → s.isConnecting = true → connect s = .ok s) ∧
    (s.isDestroyed = false → s.isConnecting = false →
      connect s = .ok { s with
        isConnecting := true
        ws := some ⟨s.nextConnId, .connecting⟩
        nextConnId := s.nextConnId + 1 }) := by
  refine ⟨fun h => ?_, fun h1 h2 => ?_, fun h1 h2 => ?_⟩ <;> simp [connect, *]

/-- Witness for connect_idempotency_contract at concrete states. -/
theorem connect_idempotency_contract_witness :
    connect (disconnect (Service.init cfg0)) = .error "Service destroyed" ∧
    connect { Service.init cfg0 with isConnecting := true } =
      .ok { Service.init cfg0 with isConnecting := true } :=
  ⟨(connect_idempotency_contract (disconnect (Service.init cfg0))).1 (by decide),
   (connect_idempotency_contract { Service.init cfg0 with isConnecting := true }).2.1
      (by decide) (by decide)⟩

/-! ### Lemmas about the Map and Set embeddings -/

theorem alGet_alSet_self (m : List (String × List Nat)) (k : String) (v : List Nat) :
    alGet (alSet m k v) k = some v := by
  induction m with
  | nil => simp [alSet, alGet]
  | cons p rest ih =>
      by_cases h : p.1 = k <;> simp [alSet, alGet, h, ih]

theorem alGet_alSet_ne (m : List (String × List Nat)) {q k : String} (v : List Nat)
    (h : q ≠ k) : alGet (alSet m q v) k = alGet m k := by
  induction m with
  | nil => simp [alSet, alGet, h]
  | cons p rest ih =>
      by_cases hp : p.1 = q
      · simp [alSet, alGet, hp, h]
      · simp [alSet, alGet, hp, ih]

theorem alGet_alErase_ne (m : List (String × List Nat)) {q k : String}
    (h : q ≠ k) : alGet (alErase m q) k = alGet m k := by
  induction m with
  | nil => simp [alErase]
  | cons p rest ih =>
      by_cases hp : p.1 = q
      · simp [alErase, alGet, hp, h]
      · simp [alErase, alGet, hp, ih]

theorem alGet_eq_none_of_not_mem (m : List (String × List Nat)) {k : String}
    (h : k ∉ m.map Prod.fst) : alGet m k = none := by
  induction m with
  | nil => rfl
  | cons p rest ih =>
      simp only [List.map_cons, List.mem_cons] at h
      push_neg at h
      have hne : ¬p.1 = k := fun he => h.1 he.symm
      simp [alGet, hne, ih h.2]

theorem alGet_alErase_self (m : List (String × List Nat)) (k : String)
    (h : (m.map Prod.fst).Nodup) : alGet (alErase m k) k = none := by
  induction m with
  | nil => rfl
  | cons p rest ih =>
      simp only [List.map_cons, List.nodup_cons] at h
      by_cases hp : p.1 = k
      · simpa [alErase, hp] using alGet_eq_none_of_not_mem rest (hp ▸ h.1)
      · simp [alErase, alGet, hp, ih h.2]

theorem alSet_alSet_self (m : List (String × List Nat)) (k : String)
    (v w : List Nat) : alSet (alSet m k v) k w = alSet m k w := by
  induction m with
  | nil => simp [alSet]
  | cons p rest ih =>
      by_cases h : p.1 = k <;> simp [alSet, h, ih]

theorem keys_alSet (m : List (String × List Nat)) (k : String) (v : List Nat) :
    (alSet m k v).map Prod.fst
      = if k ∈ m.map Prod.fst then m.map Prod.fst
        else m.map Prod.fst ++ [k] := by
  induction m with
  | nil => simp [alSet]
  | cons p rest ih =>
      by_cases h : p.1 = k
      · simp [alSet, h]
      · by_cases hm : k ∈ rest.map Prod.fst <;>
          simp [alSet, h, Ne.symm h, ih, hm]

theorem keys_nodup_alSet (m : List (String × List Nat)) (k : String) (v : List Nat)
    (h : (m.map Prod.fst).Nodup) : ((alSet m k v).map Prod.fst).Nodup := by
  rw [keys_alSet]
  split
  · exact h
  · next hk =>
      rw [List.nodup_append]
      refine ⟨h, List.nodup_singleton k, fun a ha hb => ?_⟩
      rw [List.mem_singleton] at hb
      subst hb
      exact hk ha

theorem alErase_sublist (m : List (String × List Nat)) (k : String) :
    List.Sublist (alErase m k) m := by
  induction m with
  | nil => exact List.Sublist.refl _
  | cons p rest ih =>
      by_cases hp : p.1 = k
      · simp [alErase, hp]
      · simpa [alErase, hp] using List.Sublist.cons₂ p ih

theorem keys_nodup_alErase (m : List (String × List Nat)) (k : String)
    (h : (m.map Prod.fst).Nodup) : ((alErase m k).map Prod.fst).Nodup :=
  List.Nodup.sublist (List.Sublist.map Prod.fst (alErase_sublist m k)) h

theorem alGet_mem (m : List (String × List Nat)) {k : String} {v : List Nat}
    (h : alGet m k = some v) : (k, v) ∈ m := by
  induction m with
  | nil => exact absurd h (by simp [alGet])
  | cons p rest ih =>
      by_cases hp : p.1 = k
      · simp only [alGet, hp, if_pos] at h
        obtain ⟨k', v'⟩ := p
        obtain rfl : v' = v := Option.some_injective _ h
        exact hp ▸ List.mem_cons_self _ _
      · simp only [alGet, hp, if_neg, not_false_iff] at h
        exact List.mem_cons_of_mem _ (ih h)

/-! ### Frame-preservation facts of the lifecycle helpers -/

theorem sendSubscription_subscribers (s : Service) (c : String) (sym : Option String) :
    (sendSubscription s c sym).1.subscribers = s.subscribers := by
  unfold sendSubscription; split <;> rfl

theorem sendSubscription_ws (s : Service) (c : String) (sym : Option String) :
    (sendSubscription s c sym).1.ws = s.ws := by
  unfold sendSubscription; split <;> rfl

theorem sendSubscription_reconnectAttempts (s : Service) (c : String)
    (sym : Option String) :
    (sendSubscription s c sym).1.reconnectAttempts = s.reconnectAttempts := by
  unfold sendSubscription; split <;> rfl

theorem resubscribeGo_reconnectAttempts (fuel : Nat) :
    ∀ (i : Nat) (t : Service),
      (resubscribeGo fuel i t).1.reconnectAttempts = t.reconnectAttempts := by
  induction fuel with
  | zero => intro i t; rfl
  | succ n ih =>
      intro i t
      unfold resubscribeGo
      cases h : t.activeSubscriptions.get? i with
      | none => rfl
      | some key =>
          simp only []
          rw [ih]
          exact sendSubscription_reconnectAttempts ..

/-! ### C9: retry-budget exhaustion -/

/-- C9 counterexample.  On the exhausted service (attempt counter at the
maximum of ten), an explicit connect call does not reset the attempt
counter: the counter is only reset inside the onopen handler, so if the
explicit attempt fails (error followed by close) the counter is still at the
maximum and no reconnect timer is scheduled. -/
theorem connect_call_does_not_reset_attempts :
    shouldReconnect exhaustedService = false ∧
    (connect exhaustedService).toOption.map Service.reconnectAttempts = some 10 ∧
    (onClose (onError ((connect exhaustedService).toOption.getD exhaustedService))).reconnectTimer
        = false := by
  decide

/-- C9 (amended).  Once the attempt counter has reached the configured
maximum (shouldReconnect false) and no timer is pending, a further
connection close schedules no reconnect timer and getConnectionState reports
CLOSED (3); in that state no internal event (timer firing or socket handler)
can fire, so the client stays disconnected until an external connect call;
and the attempt counter is reset to zero by a successful open (the onopen
handler), not by the connect call itself. -/
theorem reconnect_exhaustion_contract (s s' : Service)
    (hmax : shouldReconnect s = false) (htimer : s.reconnectTimer = false) :
    (onClose s).reconnectTimer = false ∧
    getConnectionState (onClose s) = 3 ∧
    stepInternal (onClose s) .timerFired = none ∧
    stepInternal (onClose s) .wsOpened = none ∧
    stepInternal (onClose s) .wsClosed = none ∧
    stepInternal (onClose s) .wsErrored = none ∧
    (onOpen s').1.reconnectAttempts = 0 := by
  have hclose : onClose s = { s with isConnecting := false, ws := none } := by
    unfold onClose
    have : shouldReconnect { s with isConnecting := false, ws := none }
        = shouldReconnect s := rfl
    simp [this, hmax]
  refine ⟨?_, ?_, ?_, ?_, ?_, ?_, ?_⟩
  · rw [hclose]; exact htimer
  · rw [hclose]; rfl
  · rw [hclose]; simp [stepInternal, htimer]
  · rw [hclose]; rfl
  · rw [hclose]; rfl
  · rw [hclose]; rfl
  · unfold onOpen resubscribeAll
    rw [resubscribeGo_reconnectAttempts]

/-- Witness for reconnect_exhaustion_contract at the exhausted service. -/
theorem reconnect_exhaustion_contract_witness :
    (onClose exhaustedService).reconnectTimer = false ∧
    getConnectionState (onClose exhaustedService) = 3 ∧
    stepInternal (onClose exhaustedService) .timerFired = none ∧
    stepInternal (onClose exhaustedService) .wsOpened = none ∧
    stepInternal (onClose exhaustedService) .wsClosed = none ∧
    stepInternal (onClose exhaustedService) .wsErrored = none ∧
    (onOpen liveService).1.reconnectAttempts = 0 :=
  reconnect_exhaustion_contract exhaustedService liveService (by decide) (by decide)

/-! ### C4: per-callback fault isolation -/

theorem handleMessage_fst (s : Service) (t : Nat → Envelope → Bool)
    (m : DeltaMessage) : (handleMessage s t m).1 = s := by
  unfold handleMessage
  split
  · split <;> rfl
  · rfl

theorem handleMessage_invocations_indep (s : Service)
    (t t' : Nat → Envelope → Bool) (m : DeltaMessage) :
    ((handleMessage s t m).2.map fun i => (i.cb, i.env))
      = ((handleMessage s t' m).2.map fun i => (i.cb, i.env)) := by
  by_cases htype : m.type = "table"
  · simp only [handleMessage, if_pos htype]
    cases htab : tableName m with
    | none => rfl
    | some channel =>
        cases hdata : m.data with
        | none => rfl
        | some items =>
            dsimp only
            simp only [List.map_flatMap]
            exact congrArg (List.flatMap items)
              (funext fun it => by simp [dispatchItem])
  · simp [handleMessage, htype]

/-- C4.  A throwing callback is caught: routing a frame never changes the
service state; the list of performed invocations (callback and envelope) is
the same whatever the throwing behaviour of the callbacks, each invocation
merely recording whether its callback threw; every callback registered under
the key of any item of the frame is invoked with the correct envelope (so
siblings on the same key and callbacks of other keys of the same frame still
run); and routing a next frame from the resulting state is identical to
routing it from the original state. -/
theorem callback_fault_isolation (s : Service) (t t' : Nat → Envelope → Bool)
    (m m' : DeltaMessage) (channel : String) (items : List Item) (it : Item)
    (c : Nat) (htype : m.type = "table") (htab : tableName m = some channel)
    (hdata : m.data = some items) (hit : it ∈ items)
    (hc : c ∈ (alGet s.subscribers
        (createSubscriptionKey channel (itemSymbol it))).getD []) :
    (handleMessage s t m).1 = s ∧
    ((handleMessage s t m).2.map fun i => (i.cb, i.env))
        = ((handleMessage s t' m).2.map fun i => (i.cb, i.env)) ∧
    (⟨c, ⟨channel, itemSymbol it, m.action, it⟩,
        t c ⟨channel, itemSymbol it, m.action, it⟩⟩ : Invocation)
        ∈ (handleMessage s t m).2 ∧
    handleMessage (handleMessage s t m).1 t' m' = handleMessage s t' m' := by
  refine ⟨handleMessage_fst s t m, handleMessage_invocations_indep s t t' m, ?_,
    by rw [handleMessage_fst]⟩
  have hmsg : handleMessage s t m
      = (s, items.flatMap (dispatchItem s t channel m.action)) := by
    unfold handleMessage
    rw [if_pos htype]
    rw [htab, hdata]
  rw [hmsg]
  refine List.mem_flatMap.mpr ⟨it, hit, ?_⟩
  unfold dispatchItem
  exact List.mem_map_of_mem _ hc


/-- Witness for callback_fault_isolation: a concrete frame routed to a
registry with two callbacks on the matched key and one on another key, under
a behaviour where the first callback throws. -/
theorem callback_fault_isolation_witness :
    (handleMessage liveC4 tC4 mC4).1 = liveC4 ∧
    ((handleMessage liveC4 tC4 mC4).2.map fun i => (i.cb, i.env))
        = ((handleMessage liveC4 (fun _ _ => false) mC4).2.map fun i => (i.cb, i.env)) ∧
    (⟨9, ⟨"v2/ticker", itemSymbol itC4, mC4.action, itC4⟩,
        tC4 9 ⟨"v2/ticker", itemSymbol itC4, mC4.action, itC4⟩⟩ : Invocation)
        ∈ (handleMessage liveC4 tC4 mC4).2 ∧
    handleMessage (handleMessage liveC4 tC4 mC4).1 (fun _ _ => false) mC4
        = handleMessage liveC4 (fun _ _ => false) mC4 :=
  callback_fault_isolation liveC4 tC4 (fun _ _ => false) mC4 mC4 "v2/ticker"
    [itC4] itC4 9 rfl rfl rfl (by decide) (by decide)

/-! ### C8: idempotence of the unsubscribe handle -/


/-- C8 counterexample.  With an intervening re-subscription of the same
callback to the same key, a second invocation of the original unsubscribe
handle is not a no-op: it removes the re-registered callback, deletes the
key and emits a second wire unsubscribe frame, so the second invocation does
not have the same effect as invoking the handle once. -/
theorem unsubscribe_handle_second_call_after_resubscribe :
    c8s3.subscribers = [("v2/ticker:BTCUSDT", [7])] ∧
    (unsubscribeHandle c8s3 "v2/ticker" (some "BTCUSDT") 7).1.subscribers = [] ∧
    (unsubscribeHandle c8s3 "v2/ticker" (some "BTCUSDT") 7).2
        = [Frame.unsubscribe "v2/ticker:BTCUSDT"] := by
  decide

theorem sendUnsubscription_subscribers (s : Service) (c : String)
    (sym : Option String) :
    (sendUnsubscription s c sym).1.subscribers = s.subscribers := by
  unfold sendUnsubscription; split <;> rfl

theorem unsubscribeHandle_absent (s : Service) (c : String) (sym : Option String)
    (cb : Nat) (h : alGet s.subscribers (createSubscriptionKey c sym) = none) :
    unsubscribeHandle s c sym cb = (s, []) := by
  simp only [unsubscribeHandle, h]

theorem unsubscribeHandle_last (s : Service) (c : String) (sym : Option String)
    (cb : Nat) {set0 : List Nat}
    (h : alGet s.subscribers (createSubscriptionKey c sym) = some set0)
    (hd : set0.erase cb = []) :
    unsubscribeHandle s c sym cb
      = sendUnsubscription
          { s with subscribers := alErase s.subscribers (createSubscriptionKey c sym) }
          c sym := by
  simp only [unsubscribeHandle, h, hd, if_true]

theorem unsubscribeHandle_keep (s : Service) (c : String) (sym : Option String)
    (cb : Nat) {set0 : List Nat}
    (h : alGet s.subscribers (createSubscriptionKey c sym) = some set0)
    (hd : ¬set0.erase cb = []) :
    unsubscribeHandle s c sym cb
      = ({ s with subscribers := alSet s.subscribers (createSubscriptionKey c sym) (set0.erase cb) }, []) := by
  simp only [unsubscribeHandle, h, hd, if_false]

/-! ### C2: replay after reconnection -/

theorem strInsert_mem (l : List String) {x : String} (h : x ∈ l) :
    strInsert l x = l := if_pos h

theorem sendSubscription_open (s : Service) (c : String) (sym : Option String)
    (hopen : wsIsOpen s = true) :
    sendSubscription s c sym
      = ({ s with activeSubscriptions := strInsert s.activeSubscriptions (createSubscriptionKey c sym) }, [Frame.subscribe (createSubscriptionKey c sym)]) := by
  simp only [sendSubscription, hopen, if_true]

theorem sendUnsubscription_open (s : Service) (c : String) (sym : Option String)
    (hopen : wsIsOpen s = true) :
    sendUnsubscription s c sym
      = ({ s with activeSubscriptions := s.activeSubscriptions.erase (createSubscriptionKey c sym) }, [Frame.unsubscribe (createSubscriptionKey c sym)]) := by
  simp only [sendUnsubscription, hopen, if_true]


/-- C2 counterexample.  A key first subscribed while disconnected is present
in the registry but absent from the live-subscription set (the offline
sendSubscription was a no-op), so after the next successful connect the
onopen replay emits no subscribe frame at all for it, contradicting the
claim that a frame is emitted for every key currently in the registry. -/
theorem offline_subscription_not_replayed :
    offlineSub.subscribers = [("v2/ticker:BTCUSDT", [3])] ∧
    offlineSub.activeSubscriptions = [] ∧
    (connect offlineSub).toOption.map (fun s1 => (onOpen s1).2) = some [] := by
  decide

theorem resubscribeGo_stable (fuel : Nat) : ∀ (i : Nat) (s : Service),
    wsIsOpen s = true →
    (∀ k ∈ s.activeSubscriptions,
        createSubscriptionKey (parseKey k).1 (parseKey k).2 = k) →
    s.activeSubscriptions.length - i ≤ fuel →
    resubscribeGo fuel i s = (s, (s.activeSubscriptions.drop i).map Frame.subscribe) := by
  induction fuel with
  | zero =>
      intro i s _ _ hfuel
      have hlen : s.activeSubscriptions.length ≤ i := by omega
      rw [List.drop_eq_nil_of_le hlen]
      rfl
  | succ n ih =>
      intro i s hopen hstable hfuel
      unfold resubscribeGo
      cases hk : s.activeSubscriptions.get? i with
      | none =>
          have hlen : s.activeSubscriptions.length ≤ i := List.get?_eq_none.mp hk
          rw [List.drop_eq_nil_of_le hlen]
          rfl
      | some key =>
          have hmem : key ∈ s.activeSubscriptions := List.get?_mem hk
          have hlt : i < s.activeSubscriptions.length := by
            by_contra hn
            rw [List.get?_eq_none.mpr (Nat.le_of_not_lt hn)] at hk
            exact Option.noConfusion hk
          have hsend : sendSubscription s (parseKey key).1 (parseKey key).2
              = (s, [Frame.subscribe key]) := by
            rw [sendSubscription_open s _ _ hopen, hstable key hmem,
              strInsert_mem _ hmem]
          have hget : s.activeSubscriptions.get ⟨i, hlt⟩ = key := by
            rw [List.get?_eq_get hlt] at hk
            exact Option.some_injective _ hk
          dsimp only
          rw [hsend]
          rw [ih (i + 1) s hopen hstable (by omega)]
          rw [List.drop_eq_getElem_cons hlt, ← hget]
          rfl

/-- C2 (amended).  Immediately after a successful (re)connection, the replay
emits one wire subscribe frame for each key of the live-subscription set
(the keys whose subscribe frame had been sent while connected and that were
not unsubscribed while connected), in order, and for no other key; the state
is unchanged.  Keys present only in the registry — in particular keys whose
first subscribe happened while disconnected — are not replayed, contrary to
the original claim (see the counterexample). -/
theorem resubscribeAll_replays_exactly_live_set (s : Service)
    (hopen : wsIsOpen s = true)
    (hstable : ∀ k ∈ s.activeSubscriptions,
        createSubscriptionKey (parseKey k).1 (parseKey k).2 = k) :
    resubscribeAll s = (s, s.activeSubscriptions.map Frame.subscribe) := by
  unfold resubscribeAll
  rw [resubscribeGo_stable _ 0 s hopen hstable (by omega)]
  rw [List.drop_zero]


/-- Witness for resubscribeAll_replays_exactly_live_set on a concrete
two-key live set. -/
theorem resubscribeAll_replays_exactly_live_set_witness :
    resubscribeAll liveTwoKeys
      = (liveTwoKeys,
          [Frame.subscribe "v2/ticker:BTCUSDT", Frame.subscribe "l2_orderbook"]) :=
  resubscribeAll_replays_exactly_live_set liveTwoKeys (by decide) (by decide)

/-! ### C10: key canonicalisation round-trip -/

theorem splitOnColon_of_not_mem {l : List Char} (h : ':' ∉ l) :
    splitOnColon l = [l] := by
  induction l with
  | nil => rfl
  | cons c rest ih =>
      simp only [List.mem_cons] at h
      push_neg at h
      have hc : ¬c = ':' := fun he => h.1 he.symm
      simp [splitOnColon, hc, ih h.2]

theorem splitOnColon_append {l1 : List Char} (l2 : List Char) (h : ':' ∉ l1) :
    splitOnColon (l1 ++ ':' :: l2) = l1 :: splitOnColon l2 := by
  induction l1 with
  | nil => simp [splitOnColon]
  | cons c rest ih =>
      simp only [List.mem_cons] at h
      push_neg at h
      have hc : ¬c = ':' := fun he => h.1 he.symm
      rw [List.cons_append]
      simp only [splitOnColon, hc, if_false]
      rw [ih h.2]

theorem splitOnColon_sound (l : List Char) :
    ∃ g gs, splitOnColon l = g :: gs ∧ ':' ∉ g ∧
      (l = g ∨ ∃ r, l = g ++ ':' :: r) := by
  induction l with
  | nil => exact ⟨[], [], rfl, List.not_mem_nil _, Or.inl rfl⟩
  | cons c rest ih =>
      by_cases hc : c = ':'
      · subst hc
        exact ⟨[], splitOnColon rest, by simp [splitOnColon], List.not_mem_nil _,
          Or.inr ⟨rest, rfl⟩⟩
      · obtain ⟨g, gs, hsplit, hng, hcase⟩ := ih
        refine ⟨c :: g, gs, ?_, ?_, ?_⟩
        · simp only [splitOnColon, hc, if_false, hsplit]
        · intro hm
          rcases List.mem_cons.mp hm with hm | hm
          · exact hc hm.symm
          · exact hng hm
        · rcases hcase with h | ⟨r, hr⟩
          · exact Or.inl (by rw [h])
          · exact Or.inr ⟨r, by rw [hr, List.cons_append]⟩

theorem parseKey_of_mem {k : String} (h : ':' ∈ k.data) :
    ∃ g g2 r, k.data = g ++ ':' :: r ∧ ':' ∉ g ∧ ':' ∉ g2 ∧
      parseKey k = (String.mk g, some (String.mk g2)) := by
  obtain ⟨g, gs, hsplit, hng, hcase⟩ := splitOnColon_sound k.data
  rcases hcase with hk | ⟨r, hr⟩
  · exact absurd (hk ▸ h) hng
  · obtain ⟨g2, gs2, hsplit2, hng2, _⟩ := splitOnColon_sound r
    refine ⟨g, g2, r, hr, hng, hng2, ?_⟩
    unfold parseKey
    rw [if_pos h]
    have hfull : splitOnColon k.data = g :: g2 :: gs2 := by
      rw [hr, splitOnColon_append _ hng, hsplit2]
    rw [hfull]


/-- C10 counterexample.  With channel v2/ticker and the empty-string symbol,
neither the channel nor the symbol contains a colon, yet the key built by
createSubscriptionKey does not round-trip through the replay split: the code
canonicalizes the empty symbol away and the replay re-subscribes with a null
symbol.  Also the concrete truncation: a colon-bearing symbol BTC:USD comes
back as BTC, the text after the second colon dropped. -/
theorem key_roundtrip_fails_on_empty_symbol :
    (':' ∉ ("v2/ticker" : String).data ∧ ':' ∉ ("" : String).data) ∧
    parseKey (createSubscriptionKey "v2/ticker" (some "")) = ("v2/ticker", none) ∧
    ("v2/ticker", (none : Option String)) ≠ ("v2/ticker", some "") ∧
    parseKey (createSubscriptionKey "v2/ticker" (some "BTC:USD"))
        = ("v2/ticker", some "BTC") := by
  decide

/-- C10 (amended).  Building the canonical key and splitting it during
replay round-trips to the original (channel, symbol) pair exactly when the
channel is colon-free and the symbol round-trips (absent, or nonempty and
colon-free); in every other case — colon-bearing channel or symbol, or the
empty-string symbol that the code canonicalizes to absent — the replay
re-subscribes to a different pair. -/
theorem key_roundtrip_characterisation (c : String) (sym : Option String) :
    parseKey (createSubscriptionKey c sym) = (c, sym) ↔
      (':' ∉ c.data ∧ symbolRoundTrips sym) := by
  constructor
  · intro h
    cases sym with
    | none =>
        refine ⟨fun hc => ?_, trivial⟩
        obtain ⟨g, g2, r, hdec, hg, hg2, hpk⟩ := parseKey_of_mem (k := c) hc
        rw [show createSubscriptionKey c none = c from rfl, hpk] at h
        exact Option.noConfusion (congrArg Prod.snd h)
    | some str =>
        by_cases hstr : str = ""
        · subst hstr
          rw [show createSubscriptionKey c (some "") = c from rfl] at h
          by_cases hc : ':' ∈ c.data
          · obtain ⟨g, g2, r, hdec, hg, hg2, hpk⟩ := parseKey_of_mem hc
            rw [hpk] at h
            have h1 : g = c.data := congrArg String.data (congrArg Prod.fst h)
            rw [h1] at hdec
            have hlen := congrArg List.length hdec
            rw [List.length_append, List.length_cons] at hlen
            omega
          · have hpk : parseKey c = (c, none) := by
              unfold parseKey
              rw [if_neg hc]
            rw [hpk] at h
            exact Option.noConfusion (congrArg Prod.snd h)
        · have hkey : createSubscriptionKey c (some str) = c ++ ":" ++ str := by
            simp [createSubscriptionKey, hstr]
          have hdata : (c ++ ":" ++ str).data = c.data ++ ':' :: str.data := by
            rw [String.data_append, String.data_append]
            simp
          have hmem : ':' ∈ (c ++ ":" ++ str).data := by
            rw [hdata]
            exact List.mem_append_right _ (List.mem_cons_self _ _)
          rw [hkey] at h
          obtain ⟨g, g2, r, hdec, hg, hg2, hpk⟩ := parseKey_of_mem hmem
          rw [hpk] at h
          have h1 : g = c.data := congrArg String.data (congrArg Prod.fst h)
          have h2 : g2 = str.data :=
            congrArg String.data
              (Option.some_injective _ (congrArg Prod.snd h))
          exact ⟨h1 ▸ hg, hstr, h2 ▸ hg2⟩
  · rintro ⟨hc, hs⟩
    cases sym with
    | none =>
        show parseKey c = (c, none)
        unfold parseKey
        rw [if_neg hc]
    | some str =>
        obtain ⟨hne, hns⟩ := hs
        have hkey : createSubscriptionKey c (some str) = c ++ ":" ++ str := by
          simp [createSubscriptionKey, hne]
        have hdata : (c ++ ":" ++ str).data = c.data ++ ':' :: str.data := by
          rw [String.data_append, String.data_append]
          simp
        have hmem : ':' ∈ (c ++ ":" ++ str).data := by
          rw [hdata]
          exact List.mem_append_right _ (List.mem_cons_self _ _)
        rw [hkey]
        unfold parseKey
        rw [if_pos hmem]
        have hfull : splitOnColon (c ++ ":" ++ str).data = [c.data, str.data] := by
          rw [hdata, splitOnColon_append _ hc, splitOnColon_of_not_mem hns]
        rw [hfull]

/-- Witness for key_roundtrip_characterisation: the canonical ticker key
round-trips. -/
theorem key_roundtrip_characterisation_witness :
    parseKey (createSubscriptionKey "v2/ticker" (some "BTCUSDT"))
      = ("v2/ticker", some "BTCUSDT") :=
  (key_roundtrip_characterisation "v2/ticker" (some "BTCUSDT")).mpr (by decide)

/-! ### C1: one wire frame per registration episode -/


theorem countFrame_append (f : Frame) (l1 l2 : List Frame) :
    countFrame f (l1 ++ l2) = countFrame f l1 + countFrame f l2 := by
  induction l1 with
  | nil => simp [countFrame]
  | cons g rest ih => simp [countFrame, ih, Nat.add_assoc]

theorem setAdd_nil (x : Nat) : setAdd [] x = [x] := by
  simp [setAdd]

theorem setAdd_nodup {v : List Nat} (cb : Nat) (h : v.Nodup) :
    (setAdd v cb).Nodup := by
  unfold setAdd
  split
  · exact h
  · next hcb =>
      rw [List.nodup_append]
      exact ⟨h, List.nodup_singleton _,
        fun a ha hb => hcb (by rwa [List.mem_singleton.mp hb] at ha)⟩

theorem setAdd_ne_nil (v : List Nat) (cb : Nat) : setAdd v cb ≠ [] := by
  unfold setAdd
  split
  · next h => exact fun he => List.not_mem_nil _ (he ▸ h)
  · exact fun he => absurd (List.append_eq_nil.mp he).2 (by simp)

theorem mem_alSet {m : List (String × List Nat)} {k : String} {v : List Nat}
    {p : String × List Nat} (hp : p ∈ alSet m k v) : p ∈ m ∨ p = (k, v) := by
  induction m with
  | nil => exact Or.inr (by simpa [alSet] using hp)
  | cons q rest ih =>
      by_cases h : q.1 = k
      · rw [show alSet (q :: rest) k v = (q.1, v) :: rest from by
            simp [alSet, h]] at hp
        rcases List.mem_cons.mp hp with hp | hp
        · exact Or.inr (by rw [hp, h])
        · exact Or.inl (List.mem_cons_of_mem _ hp)
      · rw [show alSet (q :: rest) k v = q :: alSet rest k v from by
            simp [alSet, h]] at hp
        rcases List.mem_cons.mp hp with hp | hp
        · exact Or.inl (hp ▸ List.mem_cons_self _ _)
        · exact (ih hp).imp_left (List.mem_cons_of_mem _)

theorem subscribe_new_open (s : Service) (c : String) (sym : Option String)
    (cb : Nat) (hopen : wsIsOpen s = true)
    (hnew : alGet s.subscribers (createSubscriptionKey c sym) = none) :
    subscribe s c sym cb
      = ({ s with subscribers := alSet s.subscribers (createSubscriptionKey c sym) [cb], activeSubscriptions := strInsert s.activeSubscriptions (createSubscriptionKey c sym) }, [Frame.subscribe (createSubscriptionKey c sym)]) := by
  have hopen0 : wsIsOpen { s with subscribers := alSet s.subscribers (createSubscriptionKey c sym) [] } = true := hopen
  simp only [subscribe, hnew, Option.isNone_none, if_true,
    sendSubscription_open _ _ _ hopen0, alGet_alSet_self, Option.getD_some,
    setAdd_nil, alSet_alSet_self]

theorem subscribe_existing (s : Service) (c : String) (sym : Option String)
    (cb : Nat) {v : List Nat}
    (hv : alGet s.subscribers (createSubscriptionKey c sym) = some v) :
    subscribe s c sym cb
      = ({ s with subscribers := alSet s.subscribers (createSubscriptionKey c sym) (setAdd v cb) }, []) := by
  simp only [subscribe, hv, Option.isNone_some, Bool.false_eq_true, if_false,
    Option.getD_some]

theorem subscribe_subscribers_new (s : Service) (c : String) (sym : Option String)
    (cb : Nat) (hnew : alGet s.subscribers (createSubscriptionKey c sym) = none) :
    (subscribe s c sym cb).1.subscribers
      = alSet s.subscribers (createSubscriptionKey c sym) [cb] := by
  simp only [subscribe, hnew, Option.isNone_none, if_true]
  show alSet (sendSubscription { s with subscribers := alSet s.subscribers (createSubscriptionKey c sym) [] } c sym).1.subscribers (createSubscriptionKey c sym) (setAdd ((alGet (sendSubscription { s with subscribers := alSet s.subscribers (createSubscriptionKey c sym) [] } c sym).1.subscribers (createSubscriptionKey c sym)).getD []) cb) = _
  rw [sendSubscription_subscribers, alGet_alSet_self, Option.getD_some,
    setAdd_nil, alSet_alSet_self]

theorem WF_subscribe (s : Service) (c : String) (sym : Option String) (cb : Nat)
    (h : WFSubscribers s.subscribers) :
    WFSubscribers (subscribe s c sym cb).1.subscribers := by
  obtain ⟨hnd, hsets⟩ := h
  cases hv : alGet s.subscribers (createSubscriptionKey c sym) with
  | none =>
      rw [subscribe_subscribers_new s c sym cb hv]
      refine ⟨keys_nodup_alSet _ _ _ hnd, fun p hp => ?_⟩
      rcases mem_alSet hp with hp | hp
      · exact hsets p hp
      · rw [hp]
        exact ⟨List.nodup_singleton _, by simp⟩
  | some v =>
      rw [subscribe_existing s c sym cb hv]
      refine ⟨keys_nodup_alSet _ _ _ hnd, fun p hp => ?_⟩
      rcases mem_alSet hp with hp | hp
      · exact hsets p hp
      · rw [hp]
        exact ⟨setAdd_nodup cb (hsets _ (alGet_mem _ hv)).1, setAdd_ne_nil v cb⟩

theorem WF_unsubscribeHandle (s : Service) (c : String) (sym : Option String)
    (cb : Nat) (h : WFSubscribers s.subscribers) :
    WFSubscribers (unsubscribeHandle s c sym cb).1.subscribers := by
  obtain ⟨hnd, hsets⟩ := h
  cases hv : alGet s.subscribers (createSubscriptionKey c sym) with
  | none =>
      rw [unsubscribeHandle_absent s c sym cb hv]
      exact ⟨hnd, hsets⟩
  | some v =>
      by_cases hd : v.erase cb = []
      · rw [unsubscribeHandle_last s c sym cb hv hd, sendUnsubscription_subscribers]
        exact ⟨keys_nodup_alErase _ _ hnd,
          fun p hp => hsets p ((alErase_sublist _ _).subset hp)⟩
      · rw [unsubscribeHandle_keep s c sym cb hv hd]
        refine ⟨keys_nodup_alSet _ _ _ hnd, fun p hp => ?_⟩
        rcases mem_alSet hp with hp | hp
        · exact hsets p hp
        · rw [hp]
          exact ⟨((hsets _ (alGet_mem _ hv)).1).erase cb, hd⟩

theorem WF_applyOp (s : Service) (op : Op) (h : WFSubscribers s.subscribers) :
    WFSubscribers (applyOp s op).1.subscribers := by
  cases op with
  | sub c sym cb => exact WF_subscribe s c sym cb h
  | unsub c sym cb => exact WF_unsubscribeHandle s c sym cb h

theorem hasCb_eq_isReg (s : Service) (k : String)
    (h : WFSubscribers s.subscribers) : hasCb s k = isReg s k := by
  unfold hasCb isReg
  cases hv : alGet s.subscribers k with
  | none => rfl
  | some v =>
      have hne : v ≠ [] := (h.2 _ (alGet_mem _ hv)).2
      simp [Option.getD_some, List.isEmpty_iff, hne]

theorem wsIsOpen_set_fields (s : Service) (subs : List (String × List Nat))
    (act : List String) :
    wsIsOpen { s with subscribers := subs, activeSubscriptions := act }
      = wsIsOpen s := rfl

theorem applyOp_step (s : Service) (op : Op) (k : String)
    (hopen : wsIsOpen s = true)
    (hnd : (s.subscribers.map Prod.fst).Nodup) :
    countFrame (Frame.subscribe k) (applyOp s op).2
        = (if isReg s k = false ∧ isReg (applyOp s op).1 k = true then 1 else 0) ∧
    countFrame (Frame.unsubscribe k) (applyOp s op).2
        = (if isReg s k = true ∧ isReg (applyOp s op).1 k = false then 1 else 0) ∧
    wsIsOpen (applyOp s op).1 = true := by
  cases op with
  | sub c sym cb =>
      have ha : applyOp s (Op.sub c sym cb) = subscribe s c sym cb := rfl
      rw [ha]
      cases hv : alGet s.subscribers (createSubscriptionKey c sym) with
      | none =>
          rw [subscribe_new_open s c sym cb hopen hv]
          by_cases hk : createSubscriptionKey c sym = k
          · subst hk
            simp [countFrame, isReg, hv, alGet_alSet_self, hopen, wsIsOpen_set_fields]
          · cases hb : (alGet s.subscribers k).isSome <;>
              simp [countFrame, isReg, hk, alGet_alSet_ne _ _ hk, hb, hopen,
                wsIsOpen_set_fields]
      | some v =>
          rw [subscribe_existing s c sym cb hv]
          by_cases hk : createSubscriptionKey c sym = k
          · subst hk
            simp [countFrame, isReg, hv, alGet_alSet_self, hopen, wsIsOpen_set_fields]
          · cases hb : (alGet s.subscribers k).isSome <;>
              simp [countFrame, isReg, alGet_alSet_ne _ _ hk, hb, hopen,
                wsIsOpen_set_fields]
  | unsub c sym cb =>
      have ha : applyOp s (Op.unsub c sym cb) = unsubscribeHandle s c sym cb := rfl
      rw [ha]
      cases hv : alGet s.subscribers (createSubscriptionKey c sym) with
      | none =>
          rw [unsubscribeHandle_absent s c sym cb hv]
          cases hb : (alGet s.subscribers k).isSome <;>
            simp [countFrame, isReg, hb, hopen]
      | some v =>
          by_cases hd : v.erase cb = []
          · rw [unsubscribeHandle_last s c sym cb hv hd]
            have hopen1 : wsIsOpen { s with subscribers := alErase s.subscribers (createSubscriptionKey c sym) } = true := hopen
            rw [sendUnsubscription_open _ _ _ hopen1]
            by_cases hk : createSubscriptionKey c sym = k
            · subst hk
              simp [countFrame, isReg, hv, alGet_alErase_self _ _ hnd, hopen,
                wsIsOpen_set_fields]
            · cases hb : (alGet s.subscribers k).isSome <;>
                simp [countFrame, isReg, hk, alGet_alErase_ne _ hk, hb, hopen,
                  wsIsOpen_set_fields]
          · rw [unsubscribeHandle_keep s c sym cb hv hd]
            by_cases hk : createSubscriptionKey c sym = k
            · subst hk
              simp [countFrame, isReg, hv, alGet_alSet_self, hopen,
                wsIsOpen_set_fields]
            · cases hb : (alGet s.subscribers k).isSome <;>
                simp [countFrame, isReg, alGet_alSet_ne _ _ hk, hb, hopen,
                  wsIsOpen_set_fields]

theorem runOps_counts (s : Service) (k : String) (ops : List Op)
    (hopen : wsIsOpen s = true) (hwf : WFSubscribers s.subscribers) :
    countFrame (Frame.subscribe k) (runOps s ops).2
        = upTrans (fun t => isReg t k) s ops ∧
    countFrame (Frame.unsubscribe k) (runOps s ops).2
        = downTrans (fun t => isReg t k) s ops := by
  induction ops generalizing s with
  | nil => exact ⟨rfl, rfl⟩
  | cons op rest ih =>
      obtain ⟨h1, h2, hws⟩ := applyOp_step s op k hopen hwf.1
      obtain ⟨ihs, ihu⟩ := ih (applyOp s op).1 hws (WF_applyOp s op hwf)
      constructor
      · show countFrame _ ((applyOp s op).2 ++ (runOps (applyOp s op).1 rest).2) = _
        rw [countFrame_append, h1, ihs]
        rfl
      · show countFrame _ ((applyOp s op).2 ++ (runOps (applyOp s op).1 rest).2) = _
        rw [countFrame_append, h2, ihu]
        rfl

theorem upTrans_congr (p q : Service → Bool) (ops : List Op) (s : Service)
    (hpq : ∀ t, WFSubscribers t.subscribers → p t = q t)
    (hWFstep : ∀ t op, WFSubscribers t.subscribers →
        WFSubscribers (applyOp t op).1.subscribers)
    (hwf : WFSubscribers s.subscribers) :
    upTrans p s ops = upTrans q s ops ∧ downTrans p s ops = downTrans q s ops := by
  induction ops generalizing s with
  | nil => exact ⟨rfl, rfl⟩
  | cons op rest ih =>
      obtain ⟨ihu, ihd⟩ := ih (applyOp s op).1 (hWFstep s op hwf)
      constructor
      · show (if p s = false ∧ p (applyOp s op).1 = true then 1 else 0)
            + upTrans p (applyOp s op).1 rest = _
        rw [hpq s hwf, hpq _ (hWFstep s op hwf), ihu]
        rfl
      · show (if p s = true ∧ p (applyOp s op).1 = false then 1 else 0)
            + downTrans p (applyOp s op).1 rest = _
        rw [hpq s hwf, hpq _ (hWFstep s op hwf), ihd]
        rfl

/-- C1.  Over any sequence of subscribe calls and unsubscribe-handle
invocations performed while the socket is open (on a well-formed registry),
the number of wire subscribe frames sent for a key equals the number of
steps at which the key goes from holding no callback to holding at least
one, and the number of wire unsubscribe frames equals the number of steps at
which its last callback is removed: exactly one subscribe frame per
registration episode and exactly one unsubscribe frame at its end, however
many callbacks were added or removed in between. -/
theorem wire_frames_once_per_episode (s : Service) (k : String) (ops : List Op)
    (hopen : wsIsOpen s = true) (hwf : WFSubscribers s.subscribers) :
    countFrame (Frame.subscribe k) (runOps s ops).2
        = upTrans (fun t => hasCb t k) s ops ∧
    countFrame (Frame.unsubscribe k) (runOps s ops).2
        = downTrans (fun t => hasCb t k) s ops := by
  obtain ⟨hcu, hcd⟩ := upTrans_congr (fun t => hasCb t k) (fun t => isReg t k)
    ops s (fun t ht => hasCb_eq_isReg t k ht) (fun t op ht => WF_applyOp t op ht) hwf
  obtain ⟨h1, h2⟩ := runOps_counts s k ops hopen hwf
  exact ⟨hcu ▸ h1, hcd ▸ h2⟩


/-- Witness for wire_frames_once_per_episode: a concrete interleaving with
two callbacks on one key (two registration episodes for the ticker key,
one for the orderbook key). -/
theorem wire_frames_once_per_episode_witness :
    countFrame (Frame.subscribe "v2/ticker:BTCUSDT") (runOps liveService opsW).2
        = upTrans (fun t => hasCb t "v2/ticker:BTCUSDT") liveService opsW ∧
    countFrame (Frame.unsubscribe "v2/ticker:BTCUSDT") (runOps liveService opsW).2
        = downTrans (fun t => hasCb t "v2/ticker:BTCUSDT") liveService opsW :=
  wire_frames_once_per_episode liveService "v2/ticker:BTCUSDT" opsW
    (by decide) (by decide)

/-! ### C8 continued: idempotence across intervening operations -/

theorem alSet_of_alGet (m : List (String × List Nat)) {k : String} {v : List Nat}
    (h : alGet m k = some v) : alSet m k v = m := by
  induction m with
  | nil => exact absurd h (by simp [alGet])
  | cons p rest ih =>
      by_cases hp : p.1 = k
      · simp only [alGet, hp, if_pos] at h
        obtain ⟨k2, v2⟩ := p
        obtain rfl : v2 = v := Option.some_injective _ h
        have hk : k2 = k := hp
        simp [alSet, hk]
      · simp only [alGet, hp, if_neg, not_false_iff] at h
        simp [alSet, hp, ih h]

theorem unsubscribeHandle_noop (t : Service) (c : String) (sym : Option String)
    (cb : Nat) (hwf : WFSubscribers t.subscribers)
    (habs : cb ∉ (alGet t.subscribers (createSubscriptionKey c sym)).getD []) :
    unsubscribeHandle t c sym cb = (t, []) := by
  cases hv : alGet t.subscribers (createSubscriptionKey c sym) with
  | none => exact unsubscribeHandle_absent t c sym cb hv
  | some v =>
      rw [hv] at habs
      have hmem : cb ∉ v := by simpa using habs
      have hne : v ≠ [] := (hwf.2 _ (alGet_mem _ hv)).2
      have herase : v.erase cb = v := List.erase_of_not_mem hmem
      rw [unsubscribeHandle_keep t c sym cb hv (by rw [herase]; exact hne)]
      rw [herase, alSet_of_alGet _ hv]

theorem cbAbsent_after_unsubscribe (s : Service) (c : String) (sym : Option String)
    (cb : Nat) (hwf : WFSubscribers s.subscribers) :
    cb ∉ (alGet (unsubscribeHandle s c sym cb).1.subscribers
        (createSubscriptionKey c sym)).getD [] := by
  cases hv : alGet s.subscribers (createSubscriptionKey c sym) with
  | none =>
      rw [unsubscribeHandle_absent s c sym cb hv]
      rw [hv]
      simp
  | some v =>
      by_cases hd : v.erase cb = []
      · rw [unsubscribeHandle_last s c sym cb hv hd, sendUnsubscription_subscribers,
          alGet_alErase_self _ _ hwf.1]
        simp
      · rw [unsubscribeHandle_keep s c sym cb hv hd]
        show cb ∉ (alGet (alSet s.subscribers (createSubscriptionKey c sym) (v.erase cb)) (createSubscriptionKey c sym)).getD []
        rw [alGet_alSet_self]
        have hnodup : v.Nodup := (hwf.2 _ (alGet_mem _ hv)).1
        intro hm
        exact absurd ((List.Nodup.mem_erase_iff hnodup).mp (by simpa using hm)).1
          (by simp)

theorem cbAbsent_applyOp (t : Service) (c : String) (sym : Option String)
    (cb : Nat) (op : Op) (hwf : WFSubscribers t.subscribers)
    (hop : notResub c sym cb op)
    (habs : cb ∉ (alGet t.subscribers (createSubscriptionKey c sym)).getD []) :
    cb ∉ (alGet (applyOp t op).1.subscribers (createSubscriptionKey c sym)).getD [] := by
  cases op with
  | sub c2 sym2 cb2 =>
      have ha : (applyOp t (Op.sub c2 sym2 cb2)).1 = (subscribe t c2 sym2 cb2).1 := rfl
      rw [ha]
      cases hv : alGet t.subscribers (createSubscriptionKey c2 sym2) with
      | none =>
          rw [subscribe_subscribers_new t c2 sym2 cb2 hv]
          by_cases hk : createSubscriptionKey c2 sym2 = createSubscriptionKey c sym
          · rw [hk, alGet_alSet_self]
            have hcb2 : cb2 ≠ cb := by
              rcases hop with hcb2 | hkey
              · exact hcb2
              · exact absurd hk hkey
            simp [Ne.symm hcb2]
          · rw [alGet_alSet_ne _ _ hk]
            exact habs
      | some v =>
          rw [subscribe_existing t c2 sym2 cb2 hv]
          show cb ∉ (alGet (alSet t.subscribers (createSubscriptionKey c2 sym2) (setAdd v cb2)) (createSubscriptionKey c sym)).getD []
          by_cases hk : createSubscriptionKey c2 sym2 = createSubscriptionKey c sym
          · rw [hk, alGet_alSet_self]
            have hcb2 : cb2 ≠ cb := by
              rcases hop with hcb2 | hkey
              · exact hcb2
              · exact absurd hk hkey
            have hmem : cb ∉ v := by
              rw [hk] at hv
              rw [hv] at habs
              simpa using habs
            unfold setAdd
            split
            · simpa using hmem
            · simp only [Option.getD_some, List.mem_append, List.mem_singleton]
              rintro (h | h)
              · exact hmem h
              · exact hcb2 h.symm
          · rw [alGet_alSet_ne _ _ hk]
            exact habs
  | unsub c2 sym2 cb2 =>
      have ha : (applyOp t (Op.unsub c2 sym2 cb2)).1 = (unsubscribeHandle t c2 sym2 cb2).1 := rfl
      rw [ha]
      cases hv : alGet t.subscribers (createSubscriptionKey c2 sym2) with
      | none =>
          rw [unsubscribeHandle_absent t c2 sym2 cb2 hv]
          exact habs
      | some v =>
          by_cases hd : v.erase cb2 = []
          · rw [unsubscribeHandle_last t c2 sym2 cb2 hv hd,
              sendUnsubscription_subscribers]
            by_cases hk : createSubscriptionKey c2 sym2 = createSubscriptionKey c sym
            · rw [hk, alGet_alErase_self _ _ hwf.1]
              simp
            · rw [alGet_alErase_ne _ hk]
              exact habs
          · rw [unsubscribeHandle_keep t c2 sym2 cb2 hv hd]
            show cb ∉ (alGet (alSet t.subscribers (createSubscriptionKey c2 sym2) (v.erase cb2)) (createSubscriptionKey c sym)).getD []
            by_cases hk : createSubscriptionKey c2 sym2 = createSubscriptionKey c sym
            · rw [hk, alGet_alSet_self]
              have hmem : cb ∉ v := by
                rw [hk] at hv
                rw [hv] at habs
                simpa using habs
              intro hm
              exact hmem (List.mem_of_mem_erase (by simpa using hm))
            · rw [alGet_alSet_ne _ _ hk]
              exact habs

theorem cbAbsent_runOps (t : Service) (c : String) (sym : Option String)
    (cb : Nat) (ops : List Op) (hwf : WFSubscribers t.subscribers)
    (hops : ∀ op ∈ ops, notResub c sym cb op)
    (habs : cb ∉ (alGet t.subscribers (createSubscriptionKey c sym)).getD []) :
    WFSubscribers (runOps t ops).1.subscribers ∧
    cb ∉ (alGet (runOps t ops).1.subscribers (createSubscriptionKey c sym)).getD [] := by
  induction ops generalizing t with
  | nil => exact ⟨hwf, habs⟩
  | cons op rest ih =>
      have h1 := WF_applyOp t op hwf
      have h2 := cbAbsent_applyOp t c sym cb op hwf
        (hops op (List.mem_cons_self _ _)) habs
      exact ih (applyOp t op).1 h1 (fun o ho => hops o (List.mem_cons_of_mem _ ho)) h2

/-- C8 (amended).  On a well-formed registry, the unsubscribe handle removes
exactly its captured callback from exactly its captured key, and every
invocation after the first is a safe no-op — leaving the state unchanged and
emitting nothing — across any interleaving of subscribe and
unsubscribe-handle operations in between, provided none of them re-registers
the same callback under the same key.  (With such an intervening
re-subscription the old handle removes the new registration instead, as the
counterexample shows.) -/
theorem unsubscribe_handle_idempotent_no_rereg (s : Service) (c : String)
    (sym : Option String) (cb : Nat) (ops : List Op)
    (hwf : WFSubscribers s.subscribers)
    (hops : ∀ op ∈ ops, notResub c sym cb op) :
    unsubscribeHandle (runOps (unsubscribeHandle s c sym cb).1 ops).1 c sym cb
      = ((runOps (unsubscribeHandle s c sym cb).1 ops).1, []) := by
  have hwf1 := WF_unsubscribeHandle s c sym cb hwf
  have habs1 := cbAbsent_after_unsubscribe s c sym cb hwf
  obtain ⟨hwf2, habs2⟩ :=
    cbAbsent_runOps (unsubscribeHandle s c sym cb).1 c sym cb ops hwf1 hops habs1
  exact unsubscribeHandle_noop _ c sym cb hwf2 habs2

/-- Witness for unsubscribe_handle_idempotent_no_rereg: a second invocation
of the first handle after three interleaved operations (another callback on
the same key, the same callback on another key, and an unsubscription) is a
no-op. -/
theorem unsubscribe_handle_idempotent_no_rereg_witness :
    unsubscribeHandle
        (runOps (unsubscribeHandle c8s1 "v2/ticker" (some "BTCUSDT") 7).1 opsC8).1
        "v2/ticker" (some "BTCUSDT") 7
      = ((runOps (unsubscribeHandle c8s1 "v2/ticker" (some "BTCUSDT") 7).1 opsC8).1,
          []) :=
  unsubscribe_handle_idempotent_no_rereg c8s1 "v2/ticker" (some "BTCUSDT") 7 opsC8
    (by decide) (by decide)

end DeltaWS
